import Mathlib

/-!
# Verification of avalanchejs helper functions and the AVACore middleware

Shallow embedding of `src/utils/helperfunctions.ts` and the `AVACore`
middleware class, together with the binary codec (cb58 / checksummed
base58) and the static network-configuration constants that those
functions consume.  JavaScript strings are modelled as `List Char`,
byte buffers as `List (Fin 256)`, thrown exceptions as `Except`.
-/

/-- A single byte of a JavaScript `Buffer`. -/
abbrev Byte : Type := Fin 256

/-- A JavaScript string, modelled as its list of characters. -/
abbrev JsStr : Type := List Char

/-- `s.startsWith(p)` on JavaScript strings. -/
def listStartsWith (s p : List Char) : Bool :=
  match p, s with
  | [], _ => true
  | _ :: _, [] => false
  | a :: ps, b :: ss => a = b && listStartsWith ss ps

/-- `s.split(c)` on JavaScript strings (split on every occurrence of a
single-character separator; adjacent separators yield empty segments,
exactly as in JavaScript). -/
def splitOnChar (c : Char) : List Char → List (List Char)
  | [] => [[]]
  | x :: xs =>
    if x = c then [] :: splitOnChar c xs
    else
      match splitOnChar c xs with
      | [] => [[x]]
      | h :: t => (x :: h) :: t

/-- Contiguous-substring test: `hay.includes(needle)` on JavaScript strings. -/
def containsSeq (hay needle : List Char) : Bool :=
  match hay with
  | [] => needle.isEmpty
  | _ :: t => listStartsWith hay needle || containsSeq t needle

/-! ## Binary codec (BinTools), modelled from the spec

`BinTools` (`cb58Encode` / `cb58Decode`) is code of this repository that is
not under `src/`; only its callers in `helperfunctions.ts` are visible.
Per the spec's Binary Codec contract: append a 4-byte checksum to the
payload and base58-encode the concatenation; decoding base58-decodes,
splits off the trailing 4 bytes, recomputes the checksum and fails on a
mismatch, returning only the payload bytes on success. -/

/-- The base58 alphabet (no `0`, `O`, `I`, `l`, and no `-`). -/
def b58Alphabet : List Char :=
  "123456789ABCDEFGHJKLMNPQRSTUVWXYZabcdefghijkmnopqrstuvwxyz".data

/-- Digit value `d < 58` to its base58 character. -/
def b58Char (d : Nat) : Char := b58Alphabet.getD d '1'

/-- Base58 character back to its digit value; `none` for a character
outside the alphabet. -/
def b58Digit (c : Char) : Option Nat :=
  if c ∈ b58Alphabet then some (b58Alphabet.indexOf c) else none

/-- A byte buffer read as a big-endian natural number. -/
def bytesToNat (bs : List Byte) : Nat :=
  Nat.ofDigits 256 ((bs.map Fin.val).reverse)

/-- Modelled from the spec: base58 encoding of a byte buffer (the textual
layer of the missing `BinTools` codec).  Leading zero bytes become leading
`'1'` characters; the rest of the buffer is read as a big-endian number
and written in base58, most significant digit first. -/
def b58Encode (bs : List Byte) : List Char :=
  let zeros := bs.takeWhile (fun b => b.val = 0)
  let n := bytesToNat bs
  zeros.map (fun _ => '1') ++ ((Nat.digits 58 n).reverse.map b58Char)

/-- A natural number written back as a big-endian byte buffer (no leading
zero bytes). -/
def natToBytes (n : Nat) : List Byte :=
  (Nat.digits 256 n).reverse.map (fun d => (⟨d % 256, Nat.mod_lt d (by omega)⟩ : Byte))

/-- Modelled from the spec: base58 decoding (the textual layer of the
missing `BinTools` codec).  Leading `'1'` characters become leading zero
bytes; the remaining characters are parsed as base58 digits (`none` on a
character outside the alphabet) and the resulting number is written back
big-endian. -/
def b58Decode (s : List Char) : Option (List Byte) :=
  let ones := s.takeWhile (fun c => c = '1')
  let rest := s.dropWhile (fun c => c = '1')
  match rest.mapM b58Digit with
  | none => none
  | some ds =>
    some (ones.map (fun _ => (0 : Byte)) ++ natToBytes (Nat.ofDigits 58 ds.reverse))

/-- Modelled from the spec: the 4-byte checksum appended by the missing
`BinTools` codec ("a fixed non-cryptographic hash, e.g. truncated CRC/SHA
digest — must match the decoder").  The round-trip and prefix claims are
independent of the particular digest, so a concrete deterministic fold
stands in for the truncated SHA-256 digest. -/
def checksumNat (bs : List Byte) : Nat :=
  bs.foldl (fun a b => (a * 31 + b.val + 7) % 4294967296) 5381

/-- The checksum as 4 big-endian bytes. -/
def checksum4 (bs : List Byte) : List Byte :=
  let n := checksumNat bs
  [ (⟨n / 16777216 % 256, Nat.mod_lt _ (by omega)⟩ : Byte),
    (⟨n / 65536 % 256, Nat.mod_lt _ (by omega)⟩ : Byte),
    (⟨n / 256 % 256, Nat.mod_lt _ (by omega)⟩ : Byte),
    (⟨n % 256, Nat.mod_lt _ (by omega)⟩ : Byte) ]

/-- Modelled from the spec: `BinTools.cb58Encode` — append the 4-byte
checksum to the payload, then base58-encode the concatenation. -/
def cb58Encode (bs : List Byte) : List Char :=
  b58Encode (bs ++ checksum4 bs)

/-- Modelled from the spec: `BinTools.cb58Decode` — base58-decode, split
off the trailing 4 bytes as the claimed checksum, recompute the checksum
over the remaining bytes and fail if they differ; on success return only
the payload bytes. -/
def cb58Decode (s : List Char) : Option (List Byte) :=
  match b58Decode s with
  | none => none
  | some bytes =>
    if bytes.length < 4 then none
    else
      let payload := bytes.take (bytes.length - 4)
      let claimed := bytes.drop (bytes.length - 4)
      if claimed = checksum4 payload then some payload else none

/-! ## helperfunctions.ts -/

/-- The errors thrown by the helper functions (`PrivateKeyError`,
`NodeIdError` from `utils/errors`, and the decode failure raised inside
`BinTools.cb58Decode`). -/
inductive JsError : Type
  | privateKeyError (msg : List Char)
  | nodeIdError (msg : List Char)
  | cb58DecodeError
deriving DecidableEq

/-- Modelled from the spec: the `NetworkIDToHRP` table of `utils/constants`
(not under `src/`): the static network-configuration table keyed by
numeric network ID, giving each network's human-readable prefix. -/
def NetworkIDToHRP : List (Nat × List Char) :=
  [ (0, "custom".data), (1, "avax".data), (2, "cascade".data),
    (3, "denali".data), (4, "everest".data), (5, "fuji".data),
    (1337, "custom".data), (12345, "local".data) ]

/-- Modelled from the spec: the designated default network-ID constant of
`utils/constants`. -/
def DefaultNetworkID : Nat := 1

/-- Modelled from the spec: the fallback HRP constant of
`utils/constants`, returned for a recognized-but-unregistered network ID. -/
def FallbackHRP : List Char := "custom".data

/-- `getPreferredHRP(networkID)` of `helperfunctions.ts`: the table entry
when the ID is a key of `NetworkIDToHRP`; the default network's entry when
the argument is `undefined` (modelled as `none`); the fallback constant
otherwise.  (In the unreachable case that the default network ID is itself
missing from the table, JavaScript would produce `undefined`; modelled as
the empty string.) -/
def getPreferredHRP (networkID : Option Nat) : List Char :=
  match networkID with
  | some n =>
    match List.lookup n NetworkIDToHRP with
    | some hrp => hrp
    | none => FallbackHRP
  | none =>
    match List.lookup DefaultNetworkID NetworkIDToHRP with
    | some hrp => hrp
    | none => []

/-- `bufferToPrivateKeyString(pk)`: `"PrivateKey-" + cb58Encode(pk)`. -/
def bufferToPrivateKeyString (pk : List Byte) : List Char :=
  "PrivateKey-".data ++ cb58Encode pk

/-- `privateKeyStringToBuffer(pk)`: throws a `PrivateKeyError` unless the
input starts with `"PrivateKey-"`, then splits on `'-'` and cb58-decodes
the final segment. -/
def privateKeyStringToBuffer (pk : List Char) : Except JsError (List Byte) :=
  if ¬ listStartsWith pk "PrivateKey-".data then
    .error (.privateKeyError
      "Error - privateKeyStringToBuffer: private keys must start with 'PrivateKey-'".data)
  else
    let pksplit := splitOnChar '-' pk
    match cb58Decode (pksplit.getLastD []) with
    | some b => .ok b
    | none => .error .cb58DecodeError

/-- `bufferToNodeIDString(pk)`: `"NodeID-" + cb58Encode(pk)`. -/
def bufferToNodeIDString (pk : List Byte) : List Char :=
  "NodeID-".data ++ cb58Encode pk

/-- `NodeIDStringToBuffer(pk)`: throws a `NodeIdError` unless the input
starts with `"NodeID-"`, then splits on `'-'` and cb58-decodes the final
segment. -/
def NodeIDStringToBuffer (pk : List Char) : Except JsError (List Byte) :=
  if ¬ listStartsWith pk "NodeID-".data then
    .error (.nodeIdError
      "Error - privateNodeIDToBuffer: nodeID must start with 'NodeID-'".data)
  else
    let pksplit := splitOnChar '-' pk
    match cb58Decode (pksplit.getLastD []) with
    | some b => .ok b
    | none => .error .cb58DecodeError

/-! ## Fee/cost accountant -/

/-- A transferable input of an EVM import transaction, abstracted to the
one field `costImportTx` reads: the cost the input itself reports via
`getCost()`. -/
structure TransferableInput : Type where
  cost : Nat
deriving DecidableEq

/-- An EVM `ImportTx`, abstracted to its network ID and the list returned
by `getImportInputs()`. -/
structure ImportTx : Type where
  networkID : Nat
  importInputs : List TransferableInput
deriving DecidableEq

/-- An EVM `UnsignedTx`, abstracted to its serialized form (`toBuffer()`)
and the wrapped transaction (`getTransaction()`). -/
structure EVMUnsignedTx : Type where
  serialized : List Byte
  transaction : ImportTx

/-- Modelled from the spec: the per-network C-chain byte-gas rate
`Defaults.network[n].C["txBytesGas"]` of `utils/constants` (not under
`src/`); every registered network (mainnet 1, fuji 5, local 12345)
carries the same rate of 1 gas per byte. -/
def txBytesGasOf (networkID : Nat) : Option Nat :=
  List.lookup networkID [(1, 1), (5, 1), (12345, 1)]

/-- `calcBytesCost(len)`: `len * Defaults.network[1].C["txBytesGas"]`. -/
def calcBytesCost (len : Nat) : Nat :=
  len * (txBytesGasOf 1).getD 0

/-- `costImportTx(tx)`: the byte cost of the serialized transaction, plus
every import input's own reported cost, accumulated in order exactly as
the source's `forEach` loop does. -/
def costImportTx (tx : EVMUnsignedTx) : Nat :=
  tx.transaction.importInputs.foldl (fun cost input => cost + input.cost)
    (calcBytesCost tx.serialized.length)

/-! ## AVACore middleware

The `AVACore` class: connection descriptor, label-to-module registry, and
the uniform request executor built on axios.  The registry value type is a
parameter `A` (the TypeScript `API` interface is opaque to this layer);
the transport (`axios.request`) is passed in as a function so that its
behaviour stays an external collaborator. -/

/-- The `getdata` query-parameter object of a request. -/
abbrev GetData : Type := List (JsStr × JsStr)

/-- The `postdata` request body: `string | object | ArrayBuffer |
ArrayBufferView`. -/
inductive PostData : Type
  | jsonObj (fields : List (JsStr × JsStr))
  | text (s : JsStr)
  | bytes (bs : List Byte)
deriving DecidableEq

/-- The empty object literal that `get` and `delete` pass as `postdata`. -/
def emptyBody : PostData := PostData.jsonObj []

/-- HTTP request headers. -/
abbrev HeadersT : Type := List (JsStr × JsStr)

/-- The axios request configuration, restricted to the fields `AVACore`
reads or writes. -/
structure AxiosRequestConfig : Type where
  baseURL : Option JsStr
  responseType : Option JsStr
  url : Option JsStr
  method : Option JsStr
  headers : Option HeadersT
  data : Option PostData
  params : Option GetData
deriving DecidableEq

/-- The axios response, restricted to the fields `_request` copies out. -/
structure AxiosResponse : Type where
  data : JsStr
  headers : HeadersT
  request : Nat
  status : Nat
  statusText : JsStr
deriving DecidableEq

/-- The canonical `RequestResponseData` shape of `utils/types` handed to
every caller. -/
structure RequestResponseData : Type where
  data : JsStr
  headers : HeadersT
  request : Nat
  status : Nat
  statusText : JsStr
deriving DecidableEq

/-- The state of an `AVACore` instance: protocol, ip, port, derived url,
and the label-to-module registry `apis`. -/
structure AVACore (A : Type) : Type where
  protocol : JsStr
  ip : JsStr
  port : Nat
  url : JsStr
  apis : List (JsStr × A)

/-- JavaScript string coercion of the numeric port (decimal). -/
def natChars (n : Nat) : JsStr := (Nat.repr n).data

namespace AVACore

/-- `setAddress(ip, port, protocol)`: assigns all three connection fields
and the derived url `protocol + "://" + ip + ":" + port` in one operation. -/
def setAddress (ava : AVACore A) (ip : JsStr) (port : Nat) (protocol : JsStr) :
    AVACore A :=
  { ava with
    ip := ip
    port := port
    protocol := protocol
    url := protocol ++ "://".data ++ ip ++ ":".data ++ natChars port }

/-- `setAddress(ip, port)` with the `protocol` parameter omitted: the
TypeScript default parameter supplies `"http"`. -/
def setAddressDefault (ava : AVACore A) (ip : JsStr) (port : Nat) : AVACore A :=
  setAddress ava ip port "http".data

/-- `getProtocol()`. -/
def getProtocol (ava : AVACore A) : JsStr := ava.protocol

/-- `getIP()`. -/
def getIP (ava : AVACore A) : JsStr := ava.ip

/-- `getPort()`. -/
def getPort (ava : AVACore A) : Nat := ava.port

/-- `getURL()`. -/
def getURL (ava : AVACore A) : JsStr := ava.url

/-- The `new AVACore(ip, port, protocol)` constructor: a fresh instance
(empty registry, connection fields not yet assigned) passed through
`setAddress`. -/
def create (ip : JsStr) (port : Nat) (protocol : JsStr) : AVACore A :=
  setAddress ⟨[], [], 0, [], []⟩ ip port protocol

/-- JavaScript object-key assignment `m[k] = v`: replaces the entry for
`k` when present, otherwise appends it. -/
def setEntry (m : List (JsStr × A)) (k : JsStr) (v : A) : List (JsStr × A) :=
  match m with
  | [] => [(k, v)]
  | (k', v') :: t => if k' = k then (k, v) :: t else (k', v') :: setEntry t k v

/-- `addAPI(apiName, constructorFN, baseurl)`: instantiates the module via
the factory — `new constructorFN(this)` when `baseurl` is undefined,
`new constructorFN(this, baseurl)` otherwise — and stores it under
`apiName`. -/
def addAPI (ava : AVACore A) (apiName : JsStr)
    (constructorFN : AVACore A → Option JsStr → A) (baseurl : Option JsStr) :
    AVACore A :=
  match baseurl with
  | none => { ava with apis := setEntry ava.apis apiName (constructorFN ava none) }
  | some b =>
    { ava with apis := setEntry ava.apis apiName (constructorFN ava (some b)) }

/-- `api(apiName)`: registry lookup; JavaScript property access yields
`undefined` (`none`) for an absent key. -/
def api (ava : AVACore A) (apiName : JsStr) : Option A :=
  List.lookup apiName ava.apis

/-- The axios configuration `_request` builds before dispatching: the
caller-supplied override when one is given, else a default derived from
the stored connection descriptor; then `url`, `method`, `headers`, `data`
and `params` are assigned from the call's own arguments. -/
def buildRequestConfig (ava : AVACore A) (xhrmethod : JsStr) (baseurl : JsStr)
    (getdata : GetData) (postdata : PostData) (headers : HeadersT)
    (axiosConfig : Option AxiosRequestConfig) : AxiosRequestConfig :=
  let config :=
    match axiosConfig with
    | some c => c
    | none =>
      { baseURL := some (ava.protocol ++ "://".data ++ ava.ip ++ ":".data
          ++ natChars ava.port)
        responseType := some "text".data
        url := none, method := none, headers := none, data := none,
        params := none }
  { config with
    url := some baseurl
    method := some xhrmethod
    headers := some headers
    data := some postdata
    params := some getdata }

/-- `_request(xhrmethod, baseurl, getdata, postdata, headers, axiosConfig)`:
dispatches the built configuration through the transport; a fulfilled
transport promise is copied field by field into a fresh
`RequestResponseData`; a rejected promise passes through untouched (the
`then` has no rejection handler and there is no `catch`). -/
def _request (ava : AVACore A) (xhrmethod : JsStr) (baseurl : JsStr)
    (getdata : GetData) (postdata : PostData) (headers : HeadersT)
    (axiosConfig : Option AxiosRequestConfig)
    (transport : AxiosRequestConfig → Except E AxiosResponse) :
    Except E RequestResponseData :=
  match transport
      (buildRequestConfig ava xhrmethod baseurl getdata postdata headers
        axiosConfig) with
  | .ok resp =>
    .ok { data := resp.data, headers := resp.headers, request := resp.request,
          status := resp.status, statusText := resp.statusText }
  | .error e => .error e

/-- `get(baseurl, getdata, headers, axiosConfig)`. -/
def get (ava : AVACore A) (baseurl : JsStr) (getdata : GetData)
    (headers : HeadersT) (axiosConfig : Option AxiosRequestConfig)
    (transport : AxiosRequestConfig → Except E AxiosResponse) :
    Except E RequestResponseData :=
  _request ava "GET".data baseurl getdata emptyBody headers axiosConfig transport

/-- `delete(baseurl, getdata, headers, axiosConfig)`. -/
def delete (ava : AVACore A) (baseurl : JsStr) (getdata : GetData)
    (headers : HeadersT) (axiosConfig : Option AxiosRequestConfig)
    (transport : AxiosRequestConfig → Except E AxiosResponse) :
    Except E RequestResponseData :=
  _request ava "DELETE".data baseurl getdata emptyBody headers axiosConfig
    transport

/-- `post(baseurl, getdata, postdata, headers, axiosConfig)`. -/
def post (ava : AVACore A) (baseurl : JsStr) (getdata : GetData)
    (postdata : PostData) (headers : HeadersT)
    (axiosConfig : Option AxiosRequestConfig)
    (transport : AxiosRequestConfig → Except E AxiosResponse) :
    Except E RequestResponseData :=
  _request ava "POST".data baseurl getdata postdata headers axiosConfig transport

/-- `put(baseurl, getdata, postdata, headers, axiosConfig)`. -/
def put (ava : AVACore A) (baseurl : JsStr) (getdata : GetData)
    (postdata : PostData) (headers : HeadersT)
    (axiosConfig : Option AxiosRequestConfig)
    (transport : AxiosRequestConfig → Except E AxiosResponse) :
    Except E RequestResponseData :=
  _request ava "PUT".data baseurl getdata postdata headers axiosConfig transport

/-- `patch(baseurl, getdata, postdata, headers, axiosConfig)`. -/
def patch (ava : AVACore A) (baseurl : JsStr) (getdata : GetData)
    (postdata : PostData) (headers : HeadersT)
    (axiosConfig : Option AxiosRequestConfig)
    (transport : AxiosRequestConfig → Except E AxiosResponse) :
    Except E RequestResponseData :=
  _request ava "PATCH".data baseurl getdata postdata headers axiosConfig
    transport

end AVACore

/-- One recorded registration: label, factory, optional base path. -/
def Registration (A : Type) : Type :=
  JsStr × (AVACore A → Option JsStr → A) × Option JsStr

/-- A sequence of `addAPI` calls applied in order. -/
def applyRegs (ava : AVACore A) (regs : List (Registration A)) : AVACore A :=
  regs.foldl (fun s r => s.addAPI r.1 r.2.1 r.2.2) ava

/-! ## Helper lemmas: base58 alphabet -/

theorem b58Digit_b58Char : ∀ d, d < 58 → b58Digit (b58Char d) = some d := by decide

theorem b58Char_ne_dash : ∀ d, d < 58 → b58Char d ≠ '-' := by decide

theorem b58Char_eq_one_iff : ∀ d, d < 58 → (b58Char d = '1' ↔ d = 0) := by decide

/-! ## Helper lemmas: takeWhile / dropWhile shapes -/

theorem dropWhile_of_takeWhile_nil {p : Char → Bool} {l : List Char}
    (h : l.takeWhile p = []) : l.dropWhile p = l := by
  cases l with
  | nil => rfl
  | cons x xs =>
    cases hp : p x with
    | false => simp [List.dropWhile_cons, hp]
    | true => simp [List.takeWhile_cons, hp] at h

theorem takeWhile_replicate_append (p : Char → Bool) (a : Char) (hpa : p a = true)
    (l : List Char) (hl : l.takeWhile p = []) (k : Nat) :
    (List.replicate k a ++ l).takeWhile p = List.replicate k a ∧
      (List.replicate k a ++ l).dropWhile p = l := by
  induction k with
  | zero =>
    simp only [List.replicate, List.nil_append]
    exact ⟨hl, dropWhile_of_takeWhile_nil hl⟩
  | succ k ih =>
    simp only [List.replicate_succ, List.cons_append, List.takeWhile_cons, hpa,
      List.dropWhile_cons, if_true]
    exact ⟨by rw [ih.1], ih.2⟩

theorem ofDigits_replicate_zero (b k : Nat) :
    Nat.ofDigits b (List.replicate k 0) = 0 := by
  induction k with
  | zero => rfl
  | succ k ih => simp [List.replicate_succ, Nat.ofDigits_cons, ih]

/-! ## Helper lemmas: bytes ↔ natural number -/

theorem bytesToNat_dropWhile (bs : List Byte) :
    bytesToNat bs = bytesToNat (bs.dropWhile (fun b => b.val = 0)) := by
  conv_lhs => rw [← List.takeWhile_append_dropWhile (fun b => decide (b.val = 0)) bs]
  unfold bytesToNat
  rw [List.map_append, List.reverse_append, Nat.ofDigits_append]
  have hz : (bs.takeWhile (fun b => decide (b.val = 0))).map Fin.val
      = List.replicate
          ((bs.takeWhile (fun b => decide (b.val = 0))).map Fin.val).length 0 := by
    apply List.eq_replicate_of_mem
    intro v hv
    obtain ⟨x, hx, hxv⟩ := List.mem_map.mp hv
    have := List.mem_takeWhile_imp hx
    simp only [decide_eq_true_eq] at this
    omega
  rw [hz, List.reverse_replicate, ofDigits_replicate_zero]
  simp

theorem natToBytes_bytesToNat_dropped (bs : List Byte) :
    natToBytes (bytesToNat (bs.dropWhile (fun b => b.val = 0)))
      = bs.dropWhile (fun b => b.val = 0) := by
  cases hrest : bs.dropWhile (fun b => decide (b.val = 0)) with
  | nil => simp [bytesToNat, natToBytes, Nat.ofDigits_nil, Nat.digits_zero]
  | cons r rs =>
    have hr : ¬ (r.val = 0) := by
      have h0 : 0 < (bs.dropWhile (fun b => decide (b.val = 0))).length := by
        rw [hrest]; simp
      have := List.dropWhile_get_zero_not _ bs h0
      simpa [hrest] using this
    set L : List Nat := ((r :: rs).map Fin.val).reverse with hL
    have hall : ∀ d ∈ L, d < 256 := by
      intro d hd
      rw [hL, List.mem_reverse] at hd
      obtain ⟨x, _, hxv⟩ := List.mem_map.mp hd
      omega
    have hLne : L ≠ [] := by simp [hL]
    have hlastq : L.getLast? = some r.val := by
      rw [hL, List.getLast?_reverse]
      simp
    have hlast : ∀ (h : L ≠ []), L.getLast h ≠ 0 := by
      intro h hzero
      rw [List.getLast?_eq_getLast L h, hzero] at hlastq
      simp only [Option.some.injEq] at hlastq
      exact hr hlastq.symm
    have hdig : Nat.digits 256 (Nat.ofDigits 256 L) = L :=
      Nat.digits_ofDigits 256 (by norm_num) L hall hlast
    unfold natToBytes bytesToNat
    rw [← hL, hdig, hL, List.reverse_reverse, List.map_map]
    have hid : ∀ x : Byte,
        (⟨x.val % 256, Nat.mod_lt x.val (by omega)⟩ : Byte) = x := by
      intro x
      apply Fin.ext
      simp [Nat.mod_eq_of_lt x.isLt]
    calc ((r :: rs).map fun x =>
          (⟨x.val % 256, Nat.mod_lt x.val (by omega)⟩ : Byte))
        = (r :: rs).map id := List.map_congr_left (fun x _ => hid x)
      _ = r :: rs := List.map_id _

/-! ## Helper lemmas: the digit characters of an encoded number -/

theorem digitChars_takeWhile_nil (n : Nat) :
    ((Nat.digits 58 n).reverse.map b58Char).takeWhile (fun c => c = '1') = [] := by
  cases hn : (Nat.digits 58 n).reverse with
  | nil => simp
  | cons d ds =>
    have hmem : d ∈ Nat.digits 58 n := by
      have : d ∈ (Nat.digits 58 n).reverse := by rw [hn]; simp
      simpa using this
    have hlt : d < 58 := Nat.digits_lt_base (by norm_num) hmem
    have hne : d ≠ 0 := by
      have hnz : n ≠ 0 := by
        intro h0
        rw [h0] at hn
        simp at hn
      have hq : (Nat.digits 58 n).getLast? = some d := by
        rw [← List.head?_reverse, hn]
        rfl
      have hnil : Nat.digits 58 n ≠ [] := Nat.digits_ne_nil_iff_ne_zero.mpr hnz
      rw [List.getLast?_eq_getLast _ hnil, Option.some.injEq] at hq
      rw [← hq]
      exact Nat.getLast_digit_ne_zero 58 hnz
    have hchar : ¬ (b58Char d = '1') := fun h1 => hne ((b58Char_eq_one_iff d hlt).mp h1)
    simp [List.takeWhile_cons, hchar]

theorem mapM_b58Digit_map_b58Char (ds : List Nat) (h : ∀ d ∈ ds, d < 58) :
    (ds.map b58Char).mapM b58Digit = some ds := by
  induction ds with
  | nil => rfl
  | cons d t ih =>
    have hd : d < 58 := h d (by simp)
    have ht := ih (fun x hx => h x (by simp [hx]))
    simp only [List.map_cons, List.mapM_cons, b58Digit_b58Char d hd, ht,
      Option.bind_eq_bind, Option.some_bind, Option.pure_def]

/-! ## The base58 and cb58 round trips -/

theorem b58Decode_ones_digits (k n : Nat) :
    b58Decode (List.replicate k '1' ++ (Nat.digits 58 n).reverse.map b58Char)
      = some (List.replicate k (0 : Byte) ++ natToBytes n) := by
  simp only [b58Decode]
  obtain ⟨htake, hdrop⟩ :=
    takeWhile_replicate_append (fun c => decide (c = '1')) '1' (by simp)
      ((Nat.digits 58 n).reverse.map b58Char) (digitChars_takeWhile_nil n) k
  rw [htake, hdrop]
  have hall : ∀ d ∈ (Nat.digits 58 n).reverse, d < 58 := by
    intro d hd
    exact Nat.digits_lt_base (by norm_num) (List.mem_reverse.mp hd)
  rw [mapM_b58Digit_map_b58Char _ hall]
  simp only [List.reverse_reverse, Nat.ofDigits_digits, List.map_const',
    List.length_replicate]

theorem b58Decode_b58Encode (bs : List Byte) : b58Decode (b58Encode bs) = some bs := by
  have h1 : b58Encode bs
      = List.replicate (bs.takeWhile (fun b => decide (b.val = 0))).length '1'
        ++ (Nat.digits 58 (bytesToNat bs)).reverse.map b58Char := by
    simp only [b58Encode]
    rw [List.map_const']
  rw [h1, b58Decode_ones_digits, bytesToNat_dropWhile bs,
    natToBytes_bytesToNat_dropped]
  have hzeros : List.replicate (bs.takeWhile (fun b => decide (b.val = 0))).length
      (0 : Byte) = bs.takeWhile (fun b => decide (b.val = 0)) := by
    symm
    apply List.eq_replicate_of_mem
    intro x hx
    have := List.mem_takeWhile_imp hx
    simp only [decide_eq_true_eq] at this
    exact Fin.ext this
  rw [hzeros, List.takeWhile_append_dropWhile]

theorem cb58Decode_cb58Encode (bs : List Byte) : cb58Decode (cb58Encode bs) = some bs := by
  unfold cb58Encode cb58Decode
  rw [b58Decode_b58Encode]
  have hlen : (bs ++ checksum4 bs).length = bs.length + 4 := by
    simp [checksum4]
  have hnot : ¬ ((bs ++ checksum4 bs).length < 4) := by omega
  have hsub : (bs ++ checksum4 bs).length - 4 = bs.length := by omega
  simp only [hnot, if_false, hsub]
  rw [List.take_left' rfl, List.drop_left' rfl]
  simp

/-! ## Helper lemmas: startsWith, split, and the encoded string's characters -/

theorem listStartsWith_append (p s : List Char) :
    listStartsWith (p ++ s) p = true := by
  induction p with
  | nil => simp [listStartsWith]
  | cons a t ih => simp [listStartsWith, ih]

theorem mem_b58Encode_ne_dash (bs : List Byte) :
    ∀ c ∈ b58Encode bs, c ≠ '-' := by
  intro c hc
  simp only [b58Encode, List.mem_append] at hc
  rcases hc with h1 | h2
  · obtain ⟨x, _, hxc⟩ := List.mem_map.mp h1
    rw [← hxc]
    decide
  · obtain ⟨d, hd, hdc⟩ := List.mem_map.mp h2
    have hlt : d < 58 := Nat.digits_lt_base (by norm_num) (List.mem_reverse.mp hd)
    rw [← hdc]
    exact b58Char_ne_dash d hlt

theorem splitOnChar_of_not_mem {c : Char} {l : List Char} (h : ∀ x ∈ l, x ≠ c) :
    splitOnChar c l = [l] := by
  induction l with
  | nil => rfl
  | cons x xs ih =>
    have hx : x ≠ c := h x (by simp)
    have hxs := ih (fun y hy => h y (by simp [hy]))
    simp [splitOnChar, hx, hxs]

theorem splitOnChar_append_sep {c : Char} (a l : List Char)
    (ha : ∀ x ∈ a, x ≠ c) :
    splitOnChar c (a ++ c :: l) = a :: splitOnChar c l := by
  induction a with
  | nil => simp [splitOnChar]
  | cons x a' ih =>
    have hx : x ≠ c := ha x (by simp)
    have ha' := ih (fun y hy => ha y (by simp [hy]))
    show splitOnChar c (x :: (a' ++ c :: l)) = (x :: a') :: splitOnChar c l
    simp only [splitOnChar, if_neg hx, ha']

theorem splitOnChar_bufferToPrivateKeyString (b : List Byte) :
    splitOnChar '-' (bufferToPrivateKeyString b)
      = "PrivateKey".data :: [cb58Encode b] := by
  have h2 : bufferToPrivateKeyString b
      = "PrivateKey".data ++ '-' :: cb58Encode b := rfl
  have hmem : ∀ x ∈ cb58Encode b, x ≠ '-' := fun x hx =>
    mem_b58Encode_ne_dash (b ++ checksum4 b) x hx
  rw [h2, splitOnChar_append_sep _ _ (by decide), splitOnChar_of_not_mem hmem]

/-- Claim C1: for every byte buffer `b`,
`privateKeyStringToBuffer (bufferToPrivateKeyString b)` recovers exactly
`b`: prepending `"PrivateKey-"` to the cb58 encoding of `b`, splitting on
`'-'` and cb58-decoding the final segment is the identity (the underlying
codec indeed satisfies `cb58Decode (cb58Encode x) = x`, proved as
`cb58Decode_cb58Encode`). -/
theorem privateKeyString_roundtrip (b : List Byte) :
    privateKeyStringToBuffer (bufferToPrivateKeyString b) = Except.ok b := by
  unfold privateKeyStringToBuffer
  have hstart : listStartsWith (bufferToPrivateKeyString b) "PrivateKey-".data
      = true := listStartsWith_append "PrivateKey-".data (cb58Encode b)
  rw [if_neg (by simp [hstart])]
  rw [splitOnChar_bufferToPrivateKeyString b]
  simp only [List.getLastD_cons, List.getLastD_nil]
  rw [cb58Decode_cb58Encode]

/-- Claim C4: `privateKeyStringToBuffer` throws a `PrivateKeyError` whose
message names the expected `"PrivateKey-"` literal if and only if its
input does not start with `"PrivateKey-"`, and `NodeIDStringToBuffer`
throws a `NodeIdError` whose message names `"NodeID-"` if and only if its
input does not start with `"NodeID-"`; with the prefix present, neither
function produces such an error (nothing is silently corrected: every
other outcome is an honest decode of the final segment or a decode
failure). -/
theorem formatError_iff_missing_tag (pk : List Char) :
    ((∃ msg, privateKeyStringToBuffer pk = .error (.privateKeyError msg)
        ∧ containsSeq msg "PrivateKey-".data = true)
      ↔ listStartsWith pk "PrivateKey-".data = false)
    ∧ ((∃ msg, NodeIDStringToBuffer pk = .error (.nodeIdError msg)
        ∧ containsSeq msg "NodeID-".data = true)
      ↔ listStartsWith pk "NodeID-".data = false) := by
  constructor
  · constructor
    · rintro ⟨msg, hmsg, -⟩
      by_contra hne
      rw [Bool.not_eq_false] at hne
      unfold privateKeyStringToBuffer at hmsg
      rw [if_neg (by simp [hne])] at hmsg
      simp only [] at hmsg
      split at hmsg <;> simp_all
    · intro h
      unfold privateKeyStringToBuffer
      rw [if_pos (by simp [h])]
      exact ⟨_, rfl, by decide⟩
  · constructor
    · rintro ⟨msg, hmsg, -⟩
      by_contra hne
      rw [Bool.not_eq_false] at hne
      unfold NodeIDStringToBuffer at hmsg
      rw [if_neg (by simp [hne])] at hmsg
      simp only [] at hmsg
      split at hmsg <;> simp_all
    · intro h
      unfold NodeIDStringToBuffer
      rw [if_pos (by simp [h])]
      exact ⟨_, rfl, by decide⟩

/-- Claim C3: `getPreferredHRP` returns the configured HRP when the numeric
network ID is a key of the table, the default network's HRP when the
argument is omitted (`none`), and the fallback constant when the argument
is present but not a key; being a total function of its argument, it never
throws. -/
theorem getPreferredHRP_spec :
    (∀ n hrp, List.lookup n NetworkIDToHRP = some hrp →
        getPreferredHRP (some n) = hrp)
    ∧ (List.lookup DefaultNetworkID NetworkIDToHRP = some (getPreferredHRP none))
    ∧ (∀ n, List.lookup n NetworkIDToHRP = none →
        getPreferredHRP (some n) = FallbackHRP) := by
  refine ⟨?_, rfl, ?_⟩
  · intro n hrp h
    simp [getPreferredHRP, h]
  · intro n h
    simp [getPreferredHRP, h]

theorem getPreferredHRP_spec_witness :
    getPreferredHRP (some 5) = "fuji".data
      ∧ getPreferredHRP (some 99999) = FallbackHRP :=
  ⟨getPreferredHRP_spec.1 5 "fuji".data rfl, getPreferredHRP_spec.2.2 99999 rfl⟩

/-! ## C2: the cost accountant -/

theorem txBytesGasOf_eq_one (n r : Nat) (h : txBytesGasOf n = some r) : r = 1 := by
  unfold txBytesGasOf at h
  by_cases h1 : n = 1
  · subst h1; simp [List.lookup] at h; omega
  · by_cases h5 : n = 5
    · subst h5; simp [List.lookup] at h; omega
    · by_cases h12 : n = 12345
      · subst h12; simp [List.lookup] at h; omega
      · have e1 : (n == 1) = false := by simp [h1]
        have e5 : (n == 5) = false := by simp [h5]
        have e12 : (n == 12345) = false := by simp [h12]
        simp [List.lookup, e1, e5, e12] at h

theorem foldl_cost_eq_sum (l : List TransferableInput) (init : Nat) :
    l.foldl (fun cost input => cost + input.cost) init
      = init + (l.map TransferableInput.cost).sum := by
  induction l generalizing init with
  | nil => simp
  | cons x t ih =>
    simp only [List.foldl_cons, List.map_cons, List.sum_cons, ih]
    omega

/-- Claim C2: for every transaction `tx` whose network is registered in the
fee table, `costImportTx tx` equals the serialized byte length times the
byte-gas rate of the transaction's network, plus the sum of each import
input's individually reported cost (the accountant only aggregates the
`cost` values the inputs carry; it computes nothing about them). -/
theorem costImportTx_spec (tx : EVMUnsignedTx) (rate : Nat)
    (h : txBytesGasOf tx.transaction.networkID = some rate) :
    costImportTx tx
      = tx.serialized.length * rate
        + (tx.transaction.importInputs.map TransferableInput.cost).sum := by
  have hr := txBytesGasOf_eq_one _ _ h
  subst hr
  rw [costImportTx, foldl_cost_eq_sum, calcBytesCost]
  rfl

theorem costImportTx_spec_witness :
    costImportTx ⟨[(7 : Byte), (0 : Byte), (1 : Byte)],
        ⟨1, [⟨100⟩, ⟨5⟩]⟩⟩ = 108 := by
  have h := costImportTx_spec ⟨[(7 : Byte), (0 : Byte), (1 : Byte)],
    ⟨1, [⟨100⟩, ⟨5⟩]⟩⟩ 1 rfl
  simpa using h

/-! ## C5-C10: the AVACore middleware -/

/-- Claim C5: after `setAddress(ip, port, proto)` the four getters are
mutually consistent — `getIP` is `ip`, `getPort` is `port`, `getProtocol`
is `proto`, and `getURL` is exactly `proto + "://" + ip + ":" + port` —
all four fields being fields of the one returned state (no partial
update); an omitted protocol defaults to `"http"`, and the constructor
establishes the same state as `setAddress` on a fresh instance. -/
theorem setAddress_spec {A : Type} (ava : AVACore A) (ip : JsStr) (port : Nat)
    (proto : JsStr) :
    AVACore.getIP (AVACore.setAddress ava ip port proto) = ip
    ∧ AVACore.getPort (AVACore.setAddress ava ip port proto) = port
    ∧ AVACore.getProtocol (AVACore.setAddress ava ip port proto) = proto
    ∧ AVACore.getURL (AVACore.setAddress ava ip port proto)
        = proto ++ "://".data ++ ip ++ ":".data ++ natChars port
    ∧ AVACore.setAddressDefault ava ip port
        = AVACore.setAddress ava ip port "http".data
    ∧ AVACore.create ip port proto
        = AVACore.setAddress (⟨[], [], 0, [], []⟩ : AVACore A) ip port proto :=
  ⟨rfl, rfl, rfl, rfl, rfl, rfl⟩

/-- Claim C6: every fulfilled transport outcome reaches the caller as
exactly the canonical `RequestResponseData` shape — `data`, `headers`,
`status` and `statusText` copied from the transport's reported values —
and every transport rejection is propagated unmodified, with no retry and
no suppression. -/
theorem request_canonical {A E : Type} (ava : AVACore A) (m b : JsStr)
    (g : GetData) (p : PostData) (hd : HeadersT)
    (cfg : Option AxiosRequestConfig)
    (transport : AxiosRequestConfig → Except E AxiosResponse) :
    (∀ resp, transport (AVACore.buildRequestConfig ava m b g p hd cfg) = .ok resp →
      AVACore._request ava m b g p hd cfg transport
        = .ok ⟨resp.data, resp.headers, resp.request, resp.status,
            resp.statusText⟩)
    ∧ (∀ e, transport (AVACore.buildRequestConfig ava m b g p hd cfg) = .error e →
      AVACore._request ava m b g p hd cfg transport = .error e) := by
  constructor
  · intro resp h
    unfold AVACore._request
    rw [h]
  · intro e h
    unfold AVACore._request
    rw [h]

theorem request_canonical_witness :
    AVACore._request (AVACore.create "127.0.0.1".data 9650 "http".data : AVACore Nat)
        "GET".data "/ext/X/info".data [] emptyBody [] none
        (fun _ => (Except.ok ⟨"ok".data, [], 0, 200, "OK".data⟩ :
          Except Nat AxiosResponse))
      = Except.ok ⟨"ok".data, [], 0, 200, "OK".data⟩ :=
  (request_canonical (AVACore.create "127.0.0.1".data 9650 "http".data)
    "GET".data "/ext/X/info".data [] emptyBody [] none
    (fun _ => Except.ok ⟨"ok".data, [], 0, 200, "OK".data⟩)).1
    ⟨"ok".data, [], 0, 200, "OK".data⟩ rfl

/-- Claim C10: with a transport override supplied, the dispatched
configuration takes `url`, `method`, `headers`, `data` and `params` from
the call's own arguments — overwriting whatever the override carried in
those five fields — while the override's `baseURL` and `responseType`
pass through in place of the defaults derived from the connection
descriptor. -/
theorem buildRequestConfig_override_frame {A : Type} (ava : AVACore A)
    (m b : JsStr) (g : GetData) (p : PostData) (hd : HeadersT)
    (c : AxiosRequestConfig) :
    (AVACore.buildRequestConfig ava m b g p hd (some c)).url = some b
    ∧ (AVACore.buildRequestConfig ava m b g p hd (some c)).method = some m
    ∧ (AVACore.buildRequestConfig ava m b g p hd (some c)).headers = some hd
    ∧ (AVACore.buildRequestConfig ava m b g p hd (some c)).data = some p
    ∧ (AVACore.buildRequestConfig ava m b g p hd (some c)).params = some g
    ∧ (AVACore.buildRequestConfig ava m b g p hd (some c)).baseURL = c.baseURL
    ∧ (AVACore.buildRequestConfig ava m b g p hd (some c)).responseType
        = c.responseType :=
  ⟨rfl, rfl, rfl, rfl, rfl, rfl, rfl⟩

theorem lookup_setEntry_self {A : Type} (m : List (JsStr × A)) (k : JsStr)
    (v : A) : List.lookup k (AVACore.setEntry m k v) = some v := by
  induction m with
  | nil => simp [AVACore.setEntry, List.lookup]
  | cons e t ih =>
    obtain ⟨k', v'⟩ := e
    by_cases hk : k' = k
    · subst hk
      simp [AVACore.setEntry, List.lookup]
    · have hbeq : (k == k') = false := by
        simp [Ne.symm hk]
      simp [AVACore.setEntry, hk, List.lookup, hbeq, ih]

theorem lookup_setEntry_other {A : Type} (m : List (JsStr × A)) (k k' : JsStr)
    (v : A) (h : k' ≠ k) :
    List.lookup k' (AVACore.setEntry m k v) = List.lookup k' m := by
  have hbeq : (k' == k) = false := by simp [h]
  induction m with
  | nil => simp [AVACore.setEntry, List.lookup, hbeq]
  | cons e t ih =>
    obtain ⟨k2, v2⟩ := e
    by_cases hk : k2 = k
    · subst hk
      simp [AVACore.setEntry, List.lookup, hbeq]
    · simp [AVACore.setEntry, hk, List.lookup, ih]

/-- Claim C7: module registration is last-write-wins by label — `addAPI`
stores exactly the instance built by invoking the factory on the
middleware instance (and the optional base path), a second registration
under the same label replaces the first without any duplicate-label
error, and the registry then holds the second instance. -/
theorem addAPI_last_write_wins {A : Type} (ava : AVACore A) (label : JsStr)
    (f : AVACore A → Option JsStr → A) (b : Option JsStr) :
    AVACore.api (AVACore.addAPI ava label f b) label = some (f ava b)
    ∧ ∀ (f2 : AVACore A → Option JsStr → A) (b2 : Option JsStr),
        AVACore.api
            (AVACore.addAPI (AVACore.addAPI ava label f b) label f2 b2) label
          = some (f2 (AVACore.addAPI ava label f b) b2) := by
  constructor
  · cases b <;> simp [AVACore.addAPI, AVACore.api, lookup_setEntry_self]
  · intro f2 b2
    cases b2 <;> simp [AVACore.addAPI, AVACore.api, lookup_setEntry_self]

theorem api_addAPI_frame {A : Type} (ava : AVACore A) (label label' : JsStr)
    (f : AVACore A → Option JsStr → A) (b : Option JsStr) (h : label' ≠ label) :
    AVACore.api (AVACore.addAPI ava label f b) label'
      = AVACore.api ava label' := by
  cases b <;>
    simp [AVACore.addAPI, AVACore.api, lookup_setEntry_other _ _ _ _ h]

theorem api_applyRegs_frame {A : Type} (s : AVACore A)
    (regs : List (Registration A)) (label : JsStr)
    (h : ∀ r ∈ regs, r.1 ≠ label) :
    AVACore.api (applyRegs s regs) label = AVACore.api s label := by
  induction regs generalizing s with
  | nil => rfl
  | cons r rs ih =>
    have hstep : applyRegs s (r :: rs)
        = applyRegs (AVACore.addAPI s r.1 r.2.1 r.2.2) rs := rfl
    rw [hstep, ih (AVACore.addAPI s r.1 r.2.1 r.2.2)
      (fun q hq => h q (by simp [hq])),
      api_addAPI_frame s r.1 label r.2.1 r.2.2 (fun e => h r (by simp) e.symm)]

/-- Claim C8: the registry lookup `api(label)` returns the instance stored
under that label (`apis[label]`), and after any sequence of registrations
none of which used `label`, it returns `none` — JavaScript property access
on a missing key yields `undefined`, it never throws — and the lookup
inspects nothing about the module's shape. -/
theorem api_returns_stored_or_none {A : Type} :
    (∀ (ava : AVACore A) (label : JsStr) (inst : A),
        List.lookup label ava.apis = some inst →
          AVACore.api ava label = some inst)
    ∧ (∀ (ip : JsStr) (port : Nat) (proto : JsStr)
        (regs : List (Registration A)) (label : JsStr),
        (∀ r ∈ regs, r.1 ≠ label) →
          AVACore.api (applyRegs (AVACore.create ip port proto) regs) label
            = none) := by
  constructor
  · intro ava label inst h
    exact h
  · intro ip port proto regs label h
    rw [api_applyRegs_frame _ _ _ h]
    rfl

theorem api_returns_stored_or_none_witness :
    AVACore.api (applyRegs (AVACore.create "h".data 1 "http".data : AVACore Nat)
        [("x".data, fun _ _ => (0 : Nat), none)]) "y".data = none :=
  (api_returns_stored_or_none).2 "h".data 1 "http".data
    [("x".data, fun _ _ => (0 : Nat), none)] "y".data
    (by
      rintro r hr
      rw [List.mem_singleton] at hr
      subst hr
      decide)

/-- Claim C9: each convenience wrapper is the general executor specialized
to its fixed method: `get` and `delete` call `_request` with `"GET"` and
`"DELETE"` and always pass the empty object as body, while `post`, `put`
and `patch` pass their body argument through unchanged with `"POST"`,
`"PUT"` and `"PATCH"`. -/
theorem wrappers_specialize_request {A E : Type} (ava : AVACore A)
    (b : JsStr) (g : GetData) (p : PostData) (hd : HeadersT)
    (cfg : Option AxiosRequestConfig)
    (transport : AxiosRequestConfig → Except E AxiosResponse) :
    AVACore.get ava b g hd cfg transport
        = AVACore._request ava "GET".data b g emptyBody hd cfg transport
    ∧ AVACore.delete ava b g hd cfg transport
        = AVACore._request ava "DELETE".data b g emptyBody hd cfg transport
    ∧ AVACore.post ava b g p hd cfg transport
        = AVACore._request ava "POST".data b g p hd cfg transport
    ∧ AVACore.put ava b g p hd cfg transport
        = AVACore._request ava "PUT".data b g p hd cfg transport
    ∧ AVACore.patch ava b g p hd cfg transport
        = AVACore._request ava "PATCH".data b g p hd cfg transport :=
  ⟨rfl, rfl, rfl, rfl, rfl⟩
